import Mathlib

/-!
Verification of the slether server core (Go sources under src/): a shallow
embedding of the snake/food/world/bot operations over the reals, with the
claims of the specification settled as theorems.  Floating-point values of the
source are modelled as real numbers; calls to the random generator are
modelled as explicit draw parameters.
-/

open Classical

namespace Slether

/-! ## Configuration constants (config.go) -/

noncomputable def WorldCenterX : ℝ := 10500.0
noncomputable def WorldCenterY : ℝ := 10500.0
noncomputable def WorldRadius : ℝ := 10500.0
noncomputable def SpawnMargin : ℝ := 500.0

noncomputable def SnakeNormalSpeed : ℝ := 3.0
noncomputable def SnakeBoostSpeed : ℝ := 5.0
def SnakeBoostCostTicks : ℕ := 3
def SnakeInitSegments : ℕ := 10
noncomputable def SnakeSegmentSpacing : ℝ := 8.0
noncomputable def SnakeHeadRadius : ℝ := 10.0
noncomputable def SnakeBodyRadius : ℝ := 8.0
def SnakeMinSegments : ℕ := 3
noncomputable def SnakeBaseWidth : ℝ := 10.0
noncomputable def SnakeMaxWidth : ℝ := 28.0
noncomputable def SnakeMaxTurnRate : ℝ := 0.18
noncomputable def SnakeTurnScaleFactor : ℝ := 0.008

def TargetFoodCount : ℕ := 12500
noncomputable def FoodRadius : ℝ := 5.0
def DeathFoodPerUnit : ℕ := 2
def FoodSpawnPerTick : ℕ := 100

def FoodLevel1 : ℤ := 1
def FoodLevel3 : ℤ := 3
def FoodLevel5 : ℤ := 5
def FoodLevel10 : ℤ := 10

def MovingFoodDirMinTicks : ℤ := 60
def MovingFoodDirMaxTicks : ℤ := 120
noncomputable def MovingFoodSpeed : ℝ := 4.0

noncomputable def MagnetRadius : ℝ := 16.0
noncomputable def MagnetSpeed : ℝ := 3.0

noncomputable def ViewportWidth : ℝ := 1536.0
noncomputable def ViewportHeight : ℝ := 864.0
noncomputable def ViewportBuffer : ℝ := 200.0

noncomputable def CollisionCheckRadius : ℝ := 20.0

noncomputable def BotDangerRadius : ℝ := 80.0
noncomputable def BotFoodSeekRadius : ℝ := 500.0
noncomputable def BotChaseRadius : ℝ := 300.0
noncomputable def BotFleeRadius : ℝ := 200.0
noncomputable def BotBoundaryBuffer : ℝ := 500.0

/-! ## Basic data model (snake.go, food.go) -/

/-- Point is a 2D world coordinate (snake.go). -/
structure Point where
  x : ℝ
  y : ℝ

instance : Inhabited Point := ⟨⟨0, 0⟩⟩

/-- Snake state (snake.go).  Index 0 of segments is the head. -/
structure Snake where
  id : String
  name : String
  segments : List Point
  angle : ℝ
  speed : ℝ
  score : ℤ
  color : String
  alive : Bool
  boostActive : Bool
  boostTicks : ℕ
  width : ℝ

/-- Food item (food.go).  The motion fields are only meaningful when
isMoving is set. -/
structure Food where
  id : String
  x : ℝ
  y : ℝ
  value : ℤ
  color : String
  level : ℤ
  isMoving : Bool
  moveAngle : ℝ
  moveSpeed : ℝ
  moveTicks : ℤ

/-- Internal food constructor newFoodWithLevel (food.go); the randomly chosen
color is passed in as a draw. -/
noncomputable def newFoodWithLevel (fid : String) (x y : ℝ) (level : ℤ)
    (isMoving : Bool) (color : String) : Food :=
  { id := fid, x := x, y := y, value := level, color := color, level := level,
    isMoving := isMoving, moveAngle := 0, moveSpeed := 0, moveTicks := 0 }

/-! ## Angle normalization

ApplyInput (snake.go) and normalizeAngle (bot.go) wrap an angle with the same
pair of loops: subtract 2*pi while the value exceeds pi, then add 2*pi while
it is below -pi.  We embed each loop as a well-founded recursion. -/

/-- First wrapping loop: subtract 2*pi while above pi. -/
noncomputable def normalizeDown (d : ℝ) : ℝ :=
  if d > Real.pi then normalizeDown (d - 2 * Real.pi) else d
termination_by (⌈(d - Real.pi) / (2 * Real.pi)⌉).toNat
decreasing_by
  rename_i h
  have hpi := Real.pi_pos
  have h2 : (0:ℝ) < 2 * Real.pi := by linarith
  have hq : (d - 2 * Real.pi - Real.pi) / (2 * Real.pi)
      = (d - Real.pi) / (2 * Real.pi) - 1 := by
    field_simp
    ring
  have hpos : 0 < (d - Real.pi) / (2 * Real.pi) := div_pos (by linarith) h2
  have hceil : 0 < ⌈(d - Real.pi) / (2 * Real.pi)⌉ := Int.ceil_pos.mpr hpos
  rw [hq, Int.ceil_sub_one]
  omega

/-- Second wrapping loop: add 2*pi while below -pi. -/
noncomputable def normalizeUp (d : ℝ) : ℝ :=
  if d < -Real.pi then normalizeUp (d + 2 * Real.pi) else d
termination_by (⌈(-Real.pi - d) / (2 * Real.pi)⌉).toNat
decreasing_by
  rename_i h
  have hpi := Real.pi_pos
  have h2 : (0:ℝ) < 2 * Real.pi := by linarith
  have hq : (-Real.pi - (d + 2 * Real.pi)) / (2 * Real.pi)
      = (-Real.pi - d) / (2 * Real.pi) - 1 := by
    field_simp
    ring
  have hpos : 0 < (-Real.pi - d) / (2 * Real.pi) := div_pos (by linarith) h2
  have hceil : 0 < ⌈(-Real.pi - d) / (2 * Real.pi)⌉ := Int.ceil_pos.mpr hpos
  rw [hq, Int.ceil_sub_one]
  omega

/-- normalizeAngle (bot.go): wrap an angle into the principal band; ApplyInput
(snake.go) inlines the identical two loops on the angular difference. -/
noncomputable def normalizeAngle (a : ℝ) : ℝ := normalizeUp (normalizeDown a)

theorem normalizeDown_le (d : ℝ) : normalizeDown d ≤ Real.pi := by
  induction d using normalizeDown.induct with
  | case1 d h ih => rw [normalizeDown, if_pos h]; exact ih
  | case2 d h => rw [normalizeDown, if_neg h]; linarith [not_lt.mp h]

theorem normalizeDown_congruent (d : ℝ) :
    ∃ k : ℤ, normalizeDown d = d + 2 * Real.pi * k := by
  induction d using normalizeDown.induct with
  | case1 d h ih =>
    obtain ⟨k, hk⟩ := ih
    exact ⟨k - 1, by rw [normalizeDown, if_pos h, hk]; push_cast; ring⟩
  | case2 d h => exact ⟨0, by rw [normalizeDown, if_neg h]; push_cast; ring⟩

theorem normalizeUp_ge (d : ℝ) : -Real.pi ≤ normalizeUp d := by
  induction d using normalizeUp.induct with
  | case1 d h ih => rw [normalizeUp, if_pos h]; exact ih
  | case2 d h => rw [normalizeUp, if_neg h]; linarith [not_lt.mp h]

theorem normalizeUp_le (d : ℝ) (hd : d ≤ Real.pi) : normalizeUp d ≤ Real.pi := by
  induction d using normalizeUp.induct with
  | case1 d h ih =>
    rw [normalizeUp, if_pos h]
    exact ih (by linarith [Real.pi_pos])
  | case2 d h => rw [normalizeUp, if_neg h]; exact hd

theorem normalizeUp_congruent (d : ℝ) :
    ∃ k : ℤ, normalizeUp d = d + 2 * Real.pi * k := by
  induction d using normalizeUp.induct with
  | case1 d h ih =>
    obtain ⟨k, hk⟩ := ih
    exact ⟨k + 1, by rw [normalizeUp, if_pos h, hk]; push_cast; ring⟩
  | case2 d h => exact ⟨0, by rw [normalizeUp, if_neg h]; push_cast; ring⟩

theorem normalizeAngle_mem (d : ℝ) :
    normalizeAngle d ∈ Set.Icc (-Real.pi) Real.pi :=
  ⟨normalizeUp_ge _, normalizeUp_le _ (normalizeDown_le d)⟩

theorem normalizeAngle_congruent (d : ℝ) :
    ∃ k : ℤ, normalizeAngle d = d + 2 * Real.pi * k := by
  obtain ⟨k₁, hk₁⟩ := normalizeDown_congruent d
  obtain ⟨k₂, hk₂⟩ := normalizeUp_congruent (normalizeDown d)
  refine ⟨k₁ + k₂, ?_⟩
  rw [normalizeAngle, hk₂, hk₁]
  push_cast
  ring

/-- The wrapped difference has the least absolute value in its congruence
class modulo 2*pi: it is the shortest signed angular distance. -/
theorem normalizeAngle_shortest (d y : ℝ) (k : ℤ)
    (hy : y = d + 2 * Real.pi * k) : |normalizeAngle d| ≤ |y| := by
  obtain ⟨j, hj⟩ := normalizeAngle_congruent d
  obtain ⟨hlo, hhi⟩ := normalizeAngle_mem d
  have hv : |normalizeAngle d| ≤ Real.pi := abs_le.mpr ⟨hlo, hhi⟩
  by_cases hkj : k = j
  · subst hkj
    rw [hy, ← hj]
  · have hy' : y = normalizeAngle d + 2 * Real.pi * ((k : ℝ) - (j : ℝ)) := by
      rw [hy, hj]; ring
    have hne : ((k : ℝ) - (j : ℝ)) ≠ 0 := by
      intro hzero
      exact hkj (by exact_mod_cast sub_eq_zero.mp hzero)
    have habs : (1:ℝ) ≤ |(k : ℝ) - (j : ℝ)| := by
      have : ((1:ℤ):ℝ) ≤ |((k - j : ℤ) : ℝ)| := by
        rw [← Int.cast_abs]
        exact_mod_cast Int.one_le_abs (sub_ne_zero.mpr (fun h => hkj h))
      simpa using this
    have hpi := Real.pi_pos
    have h2 : 2 * Real.pi ≤ |2 * Real.pi * ((k : ℝ) - (j : ℝ))| := by
      rw [abs_mul]
      have : |2 * Real.pi| = 2 * Real.pi := abs_of_pos (by linarith)
      rw [this]
      nlinarith
    have h3 : |2 * Real.pi * ((k : ℝ) - (j : ℝ))| - |normalizeAngle d| ≤ |y| := by
      have heq : 2 * Real.pi * ((k : ℝ) - (j : ℝ)) = y - normalizeAngle d := by
        rw [hy']; ring
      have := abs_sub y (normalizeAngle d)
      rw [heq]
      linarith
    linarith

/-! ## Snake operations (snake.go, newer revision) -/

/-- Head returns the head segment (index 0) of the snake. -/
noncomputable def Snake.head (s : Snake) : Point := s.segments.headI

/-- ApplyInput (snake.go): clamp the requested heading change to the
size-scaled turn rate, update boost state, and every SnakeBoostCostTicks-th
boosting tick drop the tail segment, shrink the width (floored at the base
width) and with probability 1/2 emit a level-3 food at the vacated tail.
The random draw of that coin is `u`; `fid`/`fcolor` stand for the food id and
color draws consumed by the food constructor. -/
noncomputable def Snake.applyInput (s : Snake) (angle : ℝ) (boost : Bool)
    (u : ℝ) (fid fcolor : String) : Snake × Option Food :=
  let maxTurn := SnakeMaxTurnRate / (1 + (s.segments.length : ℝ) * SnakeTurnScaleFactor)
  let diff0 := normalizeAngle (angle - s.angle)
  let diff := if diff0 > maxTurn then maxTurn
    else if diff0 < -maxTurn then -maxTurn else diff0
  let newAngle := s.angle + diff
  if boost then
    let bt := s.boostTicks + 1
    if bt % SnakeBoostCostTicks = 0 ∧ s.segments.length > SnakeMinSegments then
      let tail := s.segments.getLast?.getD default
      let segs := s.segments.dropLast
      let widthLoss := 4 / ((segs.length : ℝ) + 1)
      let w1 := s.width - widthLoss
      let w2 := if w1 < SnakeBaseWidth then SnakeBaseWidth else w1
      let s1 : Snake := { s with
                          angle := newAngle, speed := SnakeBoostSpeed,
                          boostActive := true, boostTicks := bt, segments := segs,
                          score := s.score - 1, width := w2 }
      if u < 0.5 then
        (s1, some { newFoodWithLevel fid tail.x tail.y FoodLevel3 false fcolor
                      with color := s.color })
      else (s1, none)
    else
      ({ s with
          angle := newAngle, speed := SnakeBoostSpeed,
          boostActive := true, boostTicks := bt }, none)
  else
    ({ s with
        angle := newAngle, speed := SnakeNormalSpeed,
        boostActive := false, boostTicks := 0 }, none)

/-- Move (snake.go): advance the head by speed along the heading, prepend the
new head and drop the last segment; report whether the new head lies outside
the circular world boundary. -/
noncomputable def Snake.move (s : Snake) : Snake × Bool :=
  let head := s.head
  let newX := head.x + s.speed * Real.cos s.angle
  let newY := head.y + s.speed * Real.sin s.angle
  let dx := newX - WorldCenterX
  let dy := newY - WorldCenterY
  let outOfBounds := decide (dx * dx + dy * dy > WorldRadius * WorldRadius)
  ({ s with segments := ⟨newX, newY⟩ :: s.segments.dropLast }, outOfBounds)

/-- Grow (snake.go): append `amount` copies of the tail, bump the score and
grow the width by 4 * amount / newLength, capped at SnakeMaxWidth. -/
noncomputable def Snake.grow (s : Snake) (amount : ℤ) : Snake :=
  let tail := s.segments.getLast?.getD default
  let segs := s.segments ++ List.replicate amount.toNat tail
  let widthGain := 4 * (amount : ℝ) / (segs.length : ℝ)
  let w1 := s.width + widthGain
  let w2 := if w1 > SnakeMaxWidth then SnakeMaxWidth else w1
  { s with segments := segs, score := s.score + amount, width := w2 }

/-- clampToCircle (food.go): move a point back just inside the circle if it
lies outside. -/
noncomputable def clampToCircle (x y cx cy radius : ℝ) : ℝ × ℝ :=
  let dx := x - cx
  let dy := y - cy
  let dist := Real.sqrt (dx * dx + dy * dy)
  if dist ≤ radius then (x, y)
  else
    let scale := (radius - 1) / dist
    (cx + dx * scale, cy + dy * scale)

/-- NewFoodAt (food.go): level-3 food near a death position, scattered by a
random jitter of up to ±20 px in each axis (draws `j`) and clamped back into
the world circle. -/
noncomputable def NewFoodAt (fid color : String) (j : ℝ × ℝ) (x y : ℝ) : Food :=
  let scatter : ℝ := 20
  let sx := x + (j.1 * 2 - 1) * scatter
  let sy := y + (j.2 * 2 - 1) * scatter
  let c := clampToCircle sx sy WorldCenterX WorldCenterY WorldRadius
  newFoodWithLevel fid c.1 c.2 FoodLevel3 false color

/-- DropFood (snake.go, newer revision): mark the snake dead and convert 70%
of the every-DeathFoodPerUnit-th body positions into food.  `jit`, `ids` and
`cols` are the per-item random draws consumed by NewFoodAt. -/
noncomputable def Snake.dropFood (s : Snake) (jit : ℕ → ℝ × ℝ)
    (ids cols : ℕ → String) : Snake × List Food :=
  let totalDrops := s.segments.length / DeathFoodPerUnit
  let dropCount := (⌊(totalDrops : ℝ) * 0.7⌋).toNat
  let sampled := ((s.segments.enum).filter
    (fun p => p.1 % DeathFoodPerUnit == 0)).map Prod.snd
  let chosen := sampled.take dropCount
  ({ s with alive := false },
   (chosen.enum).map (fun q => NewFoodAt (ids q.1) (cols q.1) (jit q.1) q.2.x q.2.y))

/-- NewSnake (snake.go): spawn at a random point at least SpawnMargin inside
the boundary, with a random heading in [0, 2*pi) and an initial straight
chain trailing behind it.  `ur`, `ua`, `uh` are the three uniform draws. -/
noncomputable def NewSnake (id name color : String) (ur ua uh : ℝ) : Snake :=
  let spawnRadius := WorldRadius - SpawnMargin
  let r := spawnRadius * Real.sqrt ur
  let spawnAngle := ua * 2 * Real.pi
  let x := WorldCenterX + r * Real.cos spawnAngle
  let y := WorldCenterY + r * Real.sin spawnAngle
  let angle := uh * 2 * Real.pi
  let segments := (List.range SnakeInitSegments).map (fun i =>
    (⟨x - (i : ℝ) * SnakeSegmentSpacing * Real.cos angle,
      y - (i : ℝ) * SnakeSegmentSpacing * Real.sin angle⟩ : Point))
  { id := id, name := name, segments := segments, angle := angle,
    speed := SnakeNormalSpeed, score := (SnakeInitSegments : ℤ), color := color,
    alive := true, boostActive := false, boostTicks := 0, width := SnakeBaseWidth }

/-! ## Helper lemmas about the turn clamp -/

theorem maxTurn_pos (n : ℕ) :
    0 < SnakeMaxTurnRate / (1 + (n : ℝ) * SnakeTurnScaleFactor) := by
  rw [SnakeMaxTurnRate, SnakeTurnScaleFactor]
  positivity

/-- In every branch of ApplyInput the new heading is the old heading plus the
clamped wrapped difference. -/
theorem applyInput_angle_eq (s : Snake) (angle : ℝ) (boost : Bool) (u : ℝ)
    (fid fcolor : String) :
    ((s.applyInput angle boost u fid fcolor).1).angle =
      s.angle +
        (let maxTurn := SnakeMaxTurnRate / (1 + (s.segments.length : ℝ) * SnakeTurnScaleFactor)
         let diff0 := normalizeAngle (angle - s.angle)
         if diff0 > maxTurn then maxTurn
           else if diff0 < -maxTurn then -maxTurn else diff0) := by
  simp only [Snake.applyInput]
  split_ifs <;> rfl

theorem clamp_abs_le (m d : ℝ) (hm : 0 ≤ m) :
    |if d > m then m else if d < -m then -m else d| ≤ m := by
  split_ifs with h1 h2
  · rw [abs_of_nonneg hm]
  · rw [abs_neg, abs_of_nonneg hm]
  · exact abs_le.mpr ⟨le_of_not_lt h2, le_of_not_lt h1⟩

theorem clamp_eq_max_min (m d : ℝ) (hm : 0 ≤ m) :
    (if d > m then m else if d < -m then -m else d) = max (-m) (min m d) := by
  rcases lt_trichotomy d m with h | h | h
  · rw [if_neg (by linarith)]
    by_cases h2 : d < -m
    · rw [if_pos h2, min_eq_right (le_of_lt h), max_eq_left (by linarith)]
    · rw [if_neg h2, min_eq_right (le_of_lt h),
        max_eq_right (le_of_not_lt h2)]
  · subst h
    rw [if_neg (lt_irrefl d), if_neg (by linarith), min_self,
      max_eq_right (by linarith)]
  · rw [if_pos h, min_eq_left (le_of_lt h), max_eq_right (by linarith)]

/-- The heading change of one ApplyInput call is bounded by the size-scaled
turn rate. -/
theorem applyInput_turn_bound (s : Snake) (angle : ℝ) (boost : Bool) (u : ℝ)
    (fid fcolor : String) :
    |((s.applyInput angle boost u fid fcolor).1).angle - s.angle|
      ≤ SnakeMaxTurnRate / (1 + (s.segments.length : ℝ) * SnakeTurnScaleFactor) := by
  rw [applyInput_angle_eq]
  simp only [add_sub_cancel_left]
  exact clamp_abs_le _ _ (le_of_lt (maxTurn_pos s.segments.length))

/-- Claim C1: one ApplyInput call changes the heading by at most
SnakeMaxTurnRate / (1 + segmentCount * SnakeTurnScaleFactor) in absolute
value, for every organism, requested angle, boost flag and random draw; and
the applied change is exactly the shortest signed angular distance from the
current to the requested heading — a value congruent to the raw difference
modulo 2*pi, lying in the wrapped band, of least absolute value in its
congruence class — clamped to that bound. -/
theorem claim_c1_turn_rate_limit (s : Snake) (angle : ℝ) (boost : Bool)
    (u : ℝ) (fid fcolor : String) :
    (|((s.applyInput angle boost u fid fcolor).1).angle - s.angle|
      ≤ SnakeMaxTurnRate / (1 + (s.segments.length : ℝ) * SnakeTurnScaleFactor)) ∧
    (((s.applyInput angle boost u fid fcolor).1).angle - s.angle
      = max (-(SnakeMaxTurnRate / (1 + (s.segments.length : ℝ) * SnakeTurnScaleFactor)))
          (min (SnakeMaxTurnRate / (1 + (s.segments.length : ℝ) * SnakeTurnScaleFactor))
            (normalizeAngle (angle - s.angle)))) ∧
    (∃ k : ℤ, normalizeAngle (angle - s.angle) = (angle - s.angle) + 2 * Real.pi * k) ∧
    (normalizeAngle (angle - s.angle) ∈ Set.Icc (-Real.pi) Real.pi) ∧
    (∀ (y : ℝ) (k : ℤ), y = (angle - s.angle) + 2 * Real.pi * k →
      |normalizeAngle (angle - s.angle)| ≤ |y|) := by
  refine ⟨applyInput_turn_bound s angle boost u fid fcolor, ?_,
    normalizeAngle_congruent _, normalizeAngle_mem _,
    fun y k hy => normalizeAngle_shortest _ y k hy⟩
  rw [applyInput_angle_eq]
  simp only [add_sub_cancel_left]
  exact clamp_eq_max_min _ _ (le_of_lt (maxTurn_pos s.segments.length))

/-- A concrete three-segment snake used to instantiate theorems. -/
noncomputable def sampleSnake : Snake :=
  { id := "s", name := "n", segments := [⟨0, 0⟩, ⟨8, 0⟩, ⟨16, 0⟩],
    angle := 0, speed := 3, score := 3, color := "c", alive := true,
    boostActive := false, boostTicks := 0, width := 10 }

/-- Claim C1 witness: the theorem instantiated at a concrete snake, requested
angle 0, and the congruent representative 2*pi of the zero difference. -/
theorem claim_c1_witness :
    ((2 * Real.pi : ℝ) = ((0:ℝ) - sampleSnake.angle) + 2 * Real.pi * ((1:ℤ) : ℝ)) ∧
    |normalizeAngle ((0:ℝ) - sampleSnake.angle)| ≤ |(2 * Real.pi : ℝ)| ∧
    |((sampleSnake.applyInput 0 false 0 "f" "c").1).angle - sampleSnake.angle|
      ≤ SnakeMaxTurnRate / (1 + (sampleSnake.segments.length : ℝ) * SnakeTurnScaleFactor) :=
  ⟨by simp [sampleSnake],
   (claim_c1_turn_rate_limit sampleSnake 0 false 0 "f" "c").2.2.2.2
     (2 * Real.pi) 1 (by simp [sampleSnake]),
   (claim_c1_turn_rate_limit sampleSnake 0 false 0 "f" "c").1⟩

/-! ## Claim C2: segment-floor and width-band invariants -/

/-- The live-organism invariant of the spec: segment count at or above the
floor, width within the band. -/
def SnakeInv (s : Snake) : Prop :=
  SnakeMinSegments ≤ s.segments.length ∧
  SnakeBaseWidth ≤ s.width ∧ s.width ≤ SnakeMaxWidth

theorem width_floor_bounds (w loss : ℝ) (_hw : SnakeBaseWidth ≤ w)
    (hw2 : w ≤ SnakeMaxWidth) (hl : 0 ≤ loss) :
    SnakeBaseWidth ≤ (if w - loss < SnakeBaseWidth then SnakeBaseWidth else w - loss) ∧
    (if w - loss < SnakeBaseWidth then SnakeBaseWidth else w - loss) ≤ SnakeMaxWidth := by
  split_ifs with h
  · exact ⟨le_refl _, by rw [SnakeBaseWidth, SnakeMaxWidth]; norm_num⟩
  · exact ⟨le_of_not_lt h, by linarith⟩

theorem width_cap_bounds (w gain : ℝ) (hw : SnakeBaseWidth ≤ w) (hg : 0 ≤ gain) :
    SnakeBaseWidth ≤ (if w + gain > SnakeMaxWidth then SnakeMaxWidth else w + gain) ∧
    (if w + gain > SnakeMaxWidth then SnakeMaxWidth else w + gain) ≤ SnakeMaxWidth := by
  split_ifs with h
  · exact ⟨by rw [SnakeBaseWidth, SnakeMaxWidth]; norm_num, le_refl _⟩
  · exact ⟨by linarith, le_of_not_lt h⟩

theorem applyInput_inv (s : Snake) (angle : ℝ) (boost : Bool) (u : ℝ)
    (fid fcolor : String) (hs : SnakeInv s) :
    SnakeInv (s.applyInput angle boost u fid fcolor).1 := by
  obtain ⟨hlen, hwlo, hwhi⟩ := hs
  simp only [Snake.applyInput]
  by_cases hb : boost = true
  · rw [if_pos hb]
    by_cases hc : (s.boostTicks + 1) % SnakeBoostCostTicks = 0 ∧
        s.segments.length > SnakeMinSegments
    · rw [if_pos hc]
      have hloss : (0:ℝ) ≤ 4 / ((s.segments.dropLast.length : ℝ) + 1) := by
        positivity
      have hw := width_floor_bounds s.width
        (4 / ((s.segments.dropLast.length : ℝ) + 1)) hwlo hwhi hloss
      have hseg : SnakeMinSegments ≤ s.segments.dropLast.length := by
        rw [List.length_dropLast]
        omega
      by_cases hu : u < 0.5
      · rw [if_pos hu]
        exact ⟨hseg, hw.1, hw.2⟩
      · rw [if_neg hu]
        exact ⟨hseg, hw.1, hw.2⟩
    · rw [if_neg hc]
      exact ⟨hlen, hwlo, hwhi⟩
  · rw [if_neg hb]
    exact ⟨hlen, hwlo, hwhi⟩

theorem move_inv (s : Snake) (hs : SnakeInv s) : SnakeInv (s.move).1 := by
  obtain ⟨hlen, hwlo, hwhi⟩ := hs
  refine ⟨?_, hwlo, hwhi⟩
  simp only [Snake.move, List.length_cons, List.length_dropLast]
  omega

theorem grow_inv (s : Snake) (amount : ℤ) (hs : SnakeInv s) (ham : 0 ≤ amount) :
    SnakeInv (s.grow amount) := by
  obtain ⟨hlen, hwlo, hwhi⟩ := hs
  refine ⟨?_, ?_⟩
  · simp only [Snake.grow, List.length_append, List.length_replicate]
    omega
  · have hg : 0 ≤ 4 * (amount : ℝ) /
        (((s.segments ++ List.replicate amount.toNat
          (s.segments.getLast?.getD default)).length : ℝ)) := by
      have h1 : (0:ℝ) ≤ (amount : ℝ) := by exact_mod_cast ham
      positivity
    simpa [Snake.grow] using width_cap_bounds s.width _ hwlo hg

/-- If ApplyInput removed a segment then the organism was strictly above the
minimum floor beforehand. -/
theorem applyInput_shrink_only_above_floor (s : Snake) (angle : ℝ) (boost : Bool)
    (u : ℝ) (fid fcolor : String)
    (h : (s.applyInput angle boost u fid fcolor).1.segments.length < s.segments.length) :
    SnakeMinSegments < s.segments.length := by
  revert h
  simp only [Snake.applyInput]
  by_cases hb : boost = true
  · rw [if_pos hb]
    by_cases hc : (s.boostTicks + 1) % SnakeBoostCostTicks = 0 ∧
        s.segments.length > SnakeMinSegments
    · rw [if_pos hc]
      by_cases hu : u < 0.5
      · rw [if_pos hu]
        exact fun _ => hc.2
      · rw [if_neg hu]
        exact fun _ => hc.2
    · rw [if_neg hc]
      exact fun h => absurd h (lt_irrefl _)
  · rw [if_neg hb]
    exact fun h => absurd h (lt_irrefl _)

/-- Claim C2: each per-tick operation (ApplyInput with its boost tail-loss
upkeep, Move, Grow with a nonnegative food value) preserves the invariant
"segment count at or above SnakeMinSegments and width within
[SnakeBaseWidth, SnakeMaxWidth]", and the boost tail-loss only fires when the
segment count is strictly above the floor. -/
theorem claim_c2_invariants (s : Snake) (angle : ℝ) (boost : Bool) (u : ℝ)
    (fid fcolor : String) (amount : ℤ) (hs : SnakeInv s) (ham : 0 ≤ amount) :
    SnakeInv (s.applyInput angle boost u fid fcolor).1 ∧
    SnakeInv (s.move).1 ∧
    SnakeInv (s.grow amount) ∧
    ((s.applyInput angle boost u fid fcolor).1.segments.length < s.segments.length →
      SnakeMinSegments < s.segments.length) :=
  ⟨applyInput_inv s angle boost u fid fcolor hs, move_inv s hs,
   grow_inv s amount hs ham,
   applyInput_shrink_only_above_floor s angle boost u fid fcolor⟩

/-- Claim C2 witness: the invariant holds of a concrete snake and is
preserved by its Move. -/
theorem claim_c2_witness :
    SnakeInv sampleSnake ∧ (0:ℤ) ≤ 1 ∧ SnakeInv (sampleSnake.move).1 :=
  have h : SnakeInv sampleSnake := by
    refine ⟨?_, ?_, ?_⟩ <;>
      norm_num [sampleSnake, SnakeInv, SnakeMinSegments, SnakeBaseWidth, SnakeMaxWidth]
  ⟨h, by norm_num, (claim_c2_invariants sampleSnake 0 false 0 "f" "c" 1 h
    (by norm_num)).2.1⟩

/-! ## Claim C8: heading range -/

/-- Claim C8 counterexample: a snake created with heading draw 3/4 has angle
3*pi/2, outside the band (-pi, pi] the claim asserts. -/
theorem claim_c8_counterexample :
    ¬ ((NewSnake "s1" "n1" "c1" 0 0 (3/4)).angle ∈ Set.Ioc (-Real.pi) Real.pi) := by
  have hpi := Real.pi_pos
  simp only [NewSnake, Set.mem_Ioc, not_and, not_le]
  intro _
  nlinarith

/-- Claim C8 (amended): immediately after NewSnake the heading lies in
[0, 2*pi) (given the uniform draw in [0,1)); ApplyInput shifts the heading by
at most the size-scaled turn cap but does not re-wrap it into (-pi, pi]. -/
theorem claim_c8_amended (id name color : String) (ur ua uh : ℝ)
    (h0 : 0 ≤ uh) (h1 : uh < 1) (s : Snake) (angle : ℝ) (boost : Bool)
    (u : ℝ) (fid fcolor : String) :
    (0 ≤ (NewSnake id name color ur ua uh).angle ∧
      (NewSnake id name color ur ua uh).angle < 2 * Real.pi) ∧
    |((s.applyInput angle boost u fid fcolor).1).angle - s.angle|
      ≤ SnakeMaxTurnRate / (1 + (s.segments.length : ℝ) * SnakeTurnScaleFactor) := by
  refine ⟨?_, applyInput_turn_bound s angle boost u fid fcolor⟩
  have hpi := Real.pi_pos
  constructor
  · simp only [NewSnake]
    nlinarith
  · simp only [NewSnake]
    nlinarith

/-- Claim C8 witness: the amended statement instantiated at heading draw 3/4
and a concrete snake. -/
theorem claim_c8_witness :
    ((0:ℝ) ≤ 3/4 ∧ (3/4:ℝ) < 1) ∧
    (0 ≤ (NewSnake "s1" "n1" "c1" 0 0 (3/4)).angle ∧
      (NewSnake "s1" "n1" "c1" 0 0 (3/4)).angle < 2 * Real.pi) :=
  ⟨⟨by norm_num, by norm_num⟩,
   (claim_c8_amended "s1" "n1" "c1" 0 0 (3/4) (by norm_num) (by norm_num)
     sampleSnake 0 false 0 "f" "c").1⟩

/-! ## Claim C4: death-to-food conversion -/

/-- Count of the sampled (every second, zero-based) indices in an index-
decorated list. -/
theorem length_filter_even_enumFrom {α : Type} (k : ℕ) (l : List α) :
    ((List.enumFrom k l).filter (fun p => p.1 % 2 == 0)).length
      = (l.length + (k + 1) % 2) / 2 := by
  induction l generalizing k with
  | nil => simp
  | cons a l ih =>
    rw [List.enumFrom_cons, List.filter_cons]
    by_cases hk : k % 2 = 0
    · simp only [hk, beq_self_eq_true, if_pos, List.length_cons, ih (k + 1)]
      omega
    · have : (k % 2 == 0) = false := by simpa using hk
      simp only [this, Bool.false_eq_true, if_false, ih (k + 1), List.length_cons]
      omega

/-- The number of food items DropFood emits: 70% (floored) of the
every-second-segment sample count. -/
theorem dropFood_count (s : Snake) (jit : ℕ → ℝ × ℝ) (ids cols : ℕ → String) :
    ((s.dropFood jit ids cols).2).length
      = (⌊((s.segments.length / DeathFoodPerUnit : ℕ) : ℝ) * 0.7⌋).toNat := by
  simp only [Snake.dropFood, List.length_map, List.enum_length, List.length_take]
  apply Nat.min_eq_left
  have hlen : (s.segments.enum.filter (fun p => p.1 % DeathFoodPerUnit == 0)).length
      = (s.segments.length + 1) / 2 := by
    rw [DeathFoodPerUnit, List.enum]
    simpa using length_filter_even_enumFrom 0 s.segments
  rw [hlen]
  have hle : ((s.segments.length / DeathFoodPerUnit : ℕ) : ℝ) * 0.7
      ≤ ((s.segments.length / DeathFoodPerUnit : ℕ) : ℝ) := by
    have : (0:ℝ) ≤ ((s.segments.length / DeathFoodPerUnit : ℕ) : ℝ) := by positivity
    nlinarith
  have h1 : (⌊((s.segments.length / DeathFoodPerUnit : ℕ) : ℝ) * 0.7⌋).toNat
      ≤ s.segments.length / DeathFoodPerUnit := by
    have h2 := Int.floor_le_floor hle
    rw [Int.floor_natCast] at h2
    exact Int.toNat_le.mpr h2
  simp only [DeathFoodPerUnit] at h1 ⊢
  omega

/-- A clamped point lies within the circle (for radius at least 1). -/
theorem clampToCircle_dist (x y cx cy r : ℝ) (hr : 1 ≤ r) :
    Real.sqrt (((clampToCircle x y cx cy r).1 - cx) * ((clampToCircle x y cx cy r).1 - cx)
      + ((clampToCircle x y cx cy r).2 - cy) * ((clampToCircle x y cx cy r).2 - cy)) ≤ r := by
  simp only [clampToCircle]
  split_ifs with h
  · exact h
  · have hd : r < Real.sqrt ((x - cx) * (x - cx) + (y - cy) * (y - cy)) := lt_of_not_le h
    have hd0 : 0 < Real.sqrt ((x - cx) * (x - cx) + (y - cy) * (y - cy)) := by linarith
    set d := Real.sqrt ((x - cx) * (x - cx) + (y - cy) * (y - cy)) with hdef
    have heq : (cx + (x - cx) * ((r - 1) / d) - cx) * (cx + (x - cx) * ((r - 1) / d) - cx)
        + (cy + (y - cy) * ((r - 1) / d) - cy) * (cy + (y - cy) * ((r - 1) / d) - cy)
        = ((r - 1) / d) ^ 2 * ((x - cx) * (x - cx) + (y - cy) * (y - cy)) := by
      ring
    rw [heq, Real.sqrt_mul (sq_nonneg _), Real.sqrt_sq_eq_abs, ← hdef]
    have hsc : 0 ≤ (r - 1) / d := div_nonneg (by linarith) (le_of_lt hd0)
    rw [abs_of_nonneg hsc, div_mul_cancel₀ _ (ne_of_gt hd0)]
    linarith

/-- Claim C4 (amended): DropFood marks the organism not-alive and returns
food items generated from every DeathFoodPerUnit-th segment position,
scattered by a random jitter and clamped inside the world circle, but their
number is floor(0.7 * (S / DeathFoodPerUnit)) — about 35% of the segment
count S, namely 70% of the sampled half of the body, not 70% of S. -/
theorem claim_c4_amended (s : Snake) (jit : ℕ → ℝ × ℝ) (ids cols : ℕ → String) :
    ((s.dropFood jit ids cols).1.alive = false) ∧
    ((s.dropFood jit ids cols).2.length
      = (⌊((s.segments.length / DeathFoodPerUnit : ℕ) : ℝ) * 0.7⌋).toNat) ∧
    ((s.dropFood jit ids cols).2.Forall (fun f =>
      Real.sqrt ((f.x - WorldCenterX) * (f.x - WorldCenterX)
        + (f.y - WorldCenterY) * (f.y - WorldCenterY)) ≤ WorldRadius)) := by
  refine ⟨by simp [Snake.dropFood], dropFood_count s jit ids cols, ?_⟩
  rw [List.forall_iff_forall_mem]
  intro f hf
  simp only [Snake.dropFood, List.mem_map] at hf
  obtain ⟨q, _, hq⟩ := hf
  rw [← hq]
  simp only [NewFoodAt, newFoodWithLevel]
  exact clampToCircle_dist _ _ _ _ _ (by rw [WorldRadius]; norm_num)

/-- A concrete 40-segment snake. -/
noncomputable def snake40 : Snake :=
  { id := "s40", name := "n40", segments := List.replicate 40 default,
    angle := 0, speed := 3, score := 40, color := "c", alive := true,
    boostActive := false, boostTicks := 0, width := 10 }

/-- Claim C4 counterexample: a snake dying with 40 segments yields 14 food
items, whereas 0.7 * 40 = 28 — the drop count is not about 70% of the
segment count. -/
theorem claim_c4_counterexample :
    ((snake40.dropFood (fun _ => (0, 0)) (fun _ => "f") (fun _ => "c")).2.length = 14)
    ∧ (0.7 : ℝ) * 40 = 28 ∧ (14 : ℕ) ≠ 28 := by
  refine ⟨?_, by norm_num, by norm_num⟩
  rw [dropFood_count]
  have h40 : snake40.segments.length = 40 := by simp [snake40]
  rw [h40, DeathFoodPerUnit]
  norm_num
  rfl

/-! ## Claim C5: moving food boundary bounce (UpdateMoving, food.go) -/

/-- atan2 with the usual quadrant conventions, via the complex argument. -/
noncomputable def atan2 (y x : ℝ) : ℝ := Complex.arg ⟨x, y⟩

/-- Random draws consumed by UpdateMoving when the direction timer expires. -/
structure MoveDraws where
  newAngle : ℝ
  newTicksDraw : ℕ

/-- UpdateMoving (food.go): advance along the travel angle, reflect the
velocity about the inward boundary normal when outside the circle and
reposition using that inward normal, then count down the direction timer. -/
noncomputable def Food.updateMoving (f : Food) (md : MoveDraws) : Food :=
  if f.isMoving = false then f
  else
    let x1 := f.x + Real.cos f.moveAngle * f.moveSpeed
    let y1 := f.y + Real.sin f.moveAngle * f.moveSpeed
    let dx := x1 - WorldCenterX
    let dy := y1 - WorldCenterY
    let dist := Real.sqrt (dx * dx + dy * dy)
    let bounced :=
      if dist > WorldRadius then
        let nx := -dx / dist
        let ny := -dy / dist
        let vx := Real.cos f.moveAngle
        let vy := Real.sin f.moveAngle
        let dot := vx * nx + vy * ny
        let vx2 := vx - 2 * dot * nx
        let vy2 := vy - 2 * dot * ny
        (WorldCenterX + nx * (WorldRadius - 1), WorldCenterY + ny * (WorldRadius - 1),
          atan2 vy2 vx2)
      else (x1, y1, f.moveAngle)
    let t1 := f.moveTicks - 1
    if t1 ≤ 0 then
      { f with
          x := bounced.1, y := bounced.2.1,
          moveAngle := md.newAngle * 2 * Real.pi,
          moveTicks := MovingFoodDirMinTicks +
            ((md.newTicksDraw % (MovingFoodDirMaxTicks - MovingFoodDirMinTicks).toNat : ℕ) : ℤ) }
    else
      { f with
          x := bounced.1, y := bounced.2.1, moveAngle := bounced.2.2,
          moveTicks := t1 }

/-- A moving food item one step short of the right-hand world boundary. -/
noncomputable def movingFoodSample : Food :=
  { id := "m1", x := 20998, y := 10500, value := 10, color := "g", level := 10,
    isMoving := true, moveAngle := 0, moveSpeed := 4, moveTicks := 100 }

/-- Claim C5 evaluation: the sample item moves to (21002, 10500) — outside the
boundary, crossing at the right edge — yet UpdateMoving repositions it at
(1, 10500), the antipodal boundary point on the far left of the world, with
the reflected angle pi; the item is not placed just inside the crossing
point as the spec describes. -/
theorem claim_c5_antipodal_reposition :
    (movingFoodSample.x + Real.cos movingFoodSample.moveAngle * movingFoodSample.moveSpeed
      = 21002) ∧
    ((movingFoodSample.updateMoving ⟨0, 0⟩).x = 1) ∧
    ((movingFoodSample.updateMoving ⟨0, 0⟩).y = 10500) ∧
    ((movingFoodSample.updateMoving ⟨0, 0⟩).moveAngle = Real.pi) := by
  refine ⟨by norm_num [movingFoodSample], ?_⟩
  norm_num [Food.updateMoving, movingFoodSample, WorldCenterX, WorldCenterY,
    WorldRadius, atan2]
  rw [show (110292004:ℝ) = 10502 ^ 2 by norm_num,
    Real.sqrt_sq (by norm_num : (0:ℝ) ≤ 10502)]
  norm_num
  rw [show ({ re := (-1:ℝ), im := (0:ℝ) } : ℂ) = (-1 : ℂ) by
    apply Complex.ext <;> simp]
  exact Complex.arg_neg_one

/-! ## Claim C7: viewport culling (SnakesInViewport, world.go) -/

/-- SnakesInViewport (world.go, newer revision): keep every live snake with
at least one segment inside the viewport rectangle centered on (cx, cy). -/
noncomputable def SnakesInViewport (snakes : List Snake) (cx cy : ℝ) : List Snake :=
  let halfW := ViewportWidth / 2 + ViewportBuffer
  let halfH := ViewportHeight / 2 + ViewportBuffer
  let minX := cx - halfW
  let maxX := cx + halfW
  let minY := cy - halfH
  let maxY := cy + halfH
  snakes.filter (fun s => s.alive && decide (∃ p ∈ s.segments,
    minX ≤ p.x ∧ p.x ≤ maxX ∧ minY ≤ p.y ∧ p.y ≤ maxY))

/-- Claim C7: a snake is included in the viewport-culled output exactly when
it is one of the world's snakes, is alive, and has at least one body segment
within the half-extent (viewport-size/2 + buffer) of the viewport center in
each axis — visibility is decided by any segment of the body, not only the
head. -/
theorem claim_c7_viewport (snakes : List Snake) (cx cy : ℝ) (s : Snake) :
    s ∈ SnakesInViewport snakes cx cy ↔
      (s ∈ snakes ∧ s.alive = true ∧
        ∃ p ∈ s.segments, |p.x - cx| ≤ ViewportWidth / 2 + ViewportBuffer ∧
          |p.y - cy| ≤ ViewportHeight / 2 + ViewportBuffer) := by
  simp only [SnakesInViewport, List.mem_filter, Bool.and_eq_true,
    decide_eq_true_eq]
  constructor
  · rintro ⟨hmem, halive, p, hp, h1, h2, h3, h4⟩
    exact ⟨hmem, halive, p, hp, abs_le.mpr ⟨by linarith, by linarith⟩,
      abs_le.mpr ⟨by linarith, by linarith⟩⟩
  · rintro ⟨hmem, halive, p, hp, h1, h2⟩
    obtain ⟨h1a, h1b⟩ := abs_le.mp h1
    obtain ⟨h2a, h2b⟩ := abs_le.mp h2
    exact ⟨hmem, halive, p, hp, by linarith, by linarith, by linarith, by linarith⟩

/-! ## Claim C3: head-to-head collision resolution (detectCollisions, game_loop.go)

The deaths map (victim id -> killer name) is modelled as an association list
with newest entry first, which matches map-assignment/lookup semantics. -/

/-- Association-list lookup (the Go map read). -/
def alookup {β : Type} : List (String × β) → String → Option β
  | [], _ => none
  | (k2, v) :: rest, k => if k2 = k then some v else alookup rest k

abbrev Deaths := List (String × String)

/-- One iteration of the head-to-head pair loop of detectCollisions: skip the
pair if either snake is already marked dead, otherwise compare head distance
with twice the head radius and mark the lower-or-equal-scored snake (both on
a tie), crediting the other's name. -/
noncomputable def processPair (d : Deaths) (a b : Snake) : Deaths :=
  if (alookup d a.id).isSome ∨ (alookup d b.id).isSome then d
  else
    let dx := a.head.x - b.head.x
    let dy := a.head.y - b.head.y
    let dist := Real.sqrt (dx * dx + dy * dy)
    if dist < SnakeHeadRadius * 2 then
      let d1 := if a.score ≥ b.score then (b.id, a.name) :: d else d
      if b.score ≥ a.score then (a.id, b.name) :: d1 else d1
    else d

/-- The inner loop of the head-to-head check: pair `a` against each later
snake in order. -/
noncomputable def innerPairs (a : Snake) : List Snake → Deaths → Deaths
  | [], d => d
  | b :: rest, d => innerPairs a rest (processPair d a b)

/-- The full head-to-head double loop of detectCollisions over the alive
snake list. -/
noncomputable def headToHead : List Snake → Deaths → Deaths
  | [], d => d
  | a :: rest, d => headToHead rest (innerPairs a rest d)

/-- The deaths accumulated after the outer loop has fully handled each snake
of a prefix (each paired against everything after it). -/
noncomputable def outerPrefix : List Snake → List Snake → Deaths → Deaths
  | [], _, d => d
  | x :: xs, ys, d => outerPrefix xs ys (innerPairs x (xs ++ ys) d)

theorem alookup_cons_of_ne {β : Type} (k1 : String) (v1 : β) (d : List (String × β))
    (k : String) (hne : k1 ≠ k) : alookup ((k1, v1) :: d) k = alookup d k := by
  simp only [alookup, if_neg hne]

theorem processPair_preserves (d : Deaths) (a b : Snake) (k v : String)
    (h : alookup d k = some v) : alookup (processPair d a b) k = some v := by
  simp only [processPair]
  split_ifs with h1 h2 h3 h4 h5 <;>
    try exact h
  all_goals {
    first
    | (rw [alookup_cons_of_ne]
       · rw [alookup_cons_of_ne]
         · exact h
         · intro he
           rw [he, h] at h1
           simp at h1
       · intro he
         rw [he, h] at h1
         simp at h1)
    | (rw [alookup_cons_of_ne]
       · exact h
       · intro he
         rw [he, h] at h1
         simp at h1) }

theorem innerPairs_preserves (a : Snake) (l : List Snake) (d : Deaths)
    (k v : String) (h : alookup d k = some v) :
    alookup (innerPairs a l d) k = some v := by
  induction l generalizing d with
  | nil => exact h
  | cons b rest ih => exact ih _ (processPair_preserves d a b k v h)

theorem headToHead_preserves (l : List Snake) (d : Deaths) (k v : String)
    (h : alookup d k = some v) : alookup (headToHead l d) k = some v := by
  induction l generalizing d with
  | nil => exact h
  | cons a rest ih => exact ih _ (innerPairs_preserves a rest d k v h)

theorem headToHead_append (p ys : List Snake) (d : Deaths) :
    headToHead (p ++ ys) d = headToHead ys (outerPrefix p ys d) := by
  induction p generalizing d with
  | nil => rfl
  | cons x xs ih =>
    simp only [List.cons_append, headToHead, outerPrefix]
    exact ih _

theorem innerPairs_append (a : Snake) (l1 l2 : List Snake) (d : Deaths) :
    innerPairs a (l1 ++ l2) d = innerPairs a l2 (innerPairs a l1 d) := by
  induction l1 generalizing d with
  | nil => rfl
  | cons b rest ih =>
    simp only [List.cons_append, innerPairs]
    exact ih _

/-- Claim C3: with the alive-snake list split as p ++ a :: m ++ b :: q and an
arbitrary deaths map d0 from earlier in the pass, suppose the pair (a, b) is
reached with neither snake yet marked dead and their heads within twice the
head radius.  Then in the final deaths map of the head-to-head pass the
lower-scored snake is marked dead crediting the other's name, and on a score
tie both are marked, each crediting the other. -/
theorem claim_c3_head_pairs (p m q : List Snake) (a b : Snake) (d0 : Deaths)
    (hid : a.id ≠ b.id)
    (ha : alookup (innerPairs a m (outerPrefix p (a :: (m ++ b :: q)) d0)) a.id = none)
    (hb : alookup (innerPairs a m (outerPrefix p (a :: (m ++ b :: q)) d0)) b.id = none)
    (hdist : Real.sqrt ((a.head.x - b.head.x) * (a.head.x - b.head.x)
      + (a.head.y - b.head.y) * (a.head.y - b.head.y)) < SnakeHeadRadius * 2) :
    (a.score < b.score →
      alookup (headToHead (p ++ a :: (m ++ b :: q)) d0) a.id = some b.name) ∧
    (b.score < a.score →
      alookup (headToHead (p ++ a :: (m ++ b :: q)) d0) b.id = some a.name) ∧
    (a.score = b.score →
      alookup (headToHead (p ++ a :: (m ++ b :: q)) d0) a.id = some b.name ∧
      alookup (headToHead (p ++ a :: (m ++ b :: q)) d0) b.id = some a.name) := by
  rw [headToHead_append]
  simp only [headToHead]
  rw [innerPairs_append]
  simp only [innerPairs]
  set dAt := innerPairs a m (outerPrefix p (a :: (m ++ b :: q)) d0) with hdAt
  have hguard : ¬ ((alookup dAt a.id).isSome ∨ (alookup dAt b.id).isSome) := by
    rw [ha, hb]
    simp
  have hstep : processPair dAt a b =
      (let d1 := if a.score ≥ b.score then (b.id, a.name) :: dAt else dAt
       if b.score ≥ a.score then (a.id, b.name) :: d1 else d1) := by
    simp only [processPair]
    rw [if_neg hguard, if_pos hdist]
  refine ⟨?_, ?_, ?_⟩
  · intro hlt
    rw [hstep]
    simp only [if_neg (not_le.mpr hlt), if_pos (le_of_lt hlt)]
    exact headToHead_preserves _ _ _ _ (innerPairs_preserves _ _ _ _ _
      (by simp [alookup]))
  · intro hlt
    rw [hstep]
    simp only [if_pos (le_of_lt hlt), if_neg (not_le.mpr hlt)]
    exact headToHead_preserves _ _ _ _ (innerPairs_preserves _ _ _ _ _
      (by simp [alookup]))
  · intro heq
    rw [hstep]
    simp only [if_pos (le_of_eq heq), if_pos (ge_of_eq heq)]
    constructor
    · exact headToHead_preserves _ _ _ _ (innerPairs_preserves _ _ _ _ _
        (by simp [alookup]))
    · exact headToHead_preserves _ _ _ _ (innerPairs_preserves _ _ _ _ _
        (by rw [alookup_cons_of_ne _ _ _ _ hid]; simp [alookup]))

/-- Two single-segment snakes with adjacent heads and scores 1 and 2. -/
noncomputable def snakeLowScore : Snake :=
  { id := "a", name := "A", segments := [⟨0, 0⟩], angle := 0, speed := 3,
    score := 1, color := "c", alive := true, boostActive := false,
    boostTicks := 0, width := 10 }

noncomputable def snakeHighScore : Snake :=
  { id := "b", name := "B", segments := [⟨1, 0⟩], angle := 0, speed := 3,
    score := 2, color := "c", alive := true, boostActive := false,
    boostTicks := 0, width := 10 }

/-- Claim C3 witness: the pair theorem at two concrete adjacent snakes — the
score-1 snake is marked dead crediting the score-2 snake's name. -/
theorem claim_c3_witness :
    (snakeLowScore.id ≠ snakeHighScore.id) ∧
    (alookup (innerPairs snakeLowScore []
      (outerPrefix [] (snakeLowScore :: ([] ++ snakeHighScore :: [])) []))
      snakeLowScore.id = none) ∧
    (Real.sqrt ((snakeLowScore.head.x - snakeHighScore.head.x)
        * (snakeLowScore.head.x - snakeHighScore.head.x)
      + (snakeLowScore.head.y - snakeHighScore.head.y)
        * (snakeLowScore.head.y - snakeHighScore.head.y)) < SnakeHeadRadius * 2) ∧
    (snakeLowScore.score < snakeHighScore.score) ∧
    (alookup (headToHead ([] ++ snakeLowScore :: ([] ++ snakeHighScore :: [])) [])
      snakeLowScore.id = some snakeHighScore.name) := by
  have hid : snakeLowScore.id ≠ snakeHighScore.id := by
    simp [snakeLowScore, snakeHighScore]
  have ha : alookup (innerPairs snakeLowScore []
      (outerPrefix [] (snakeLowScore :: ([] ++ snakeHighScore :: [])) []))
      snakeLowScore.id = none := rfl
  have hb : alookup (innerPairs snakeLowScore []
      (outerPrefix [] (snakeLowScore :: ([] ++ snakeHighScore :: [])) []))
      snakeHighScore.id = none := rfl
  have hdist : Real.sqrt ((snakeLowScore.head.x - snakeHighScore.head.x)
        * (snakeLowScore.head.x - snakeHighScore.head.x)
      + (snakeLowScore.head.y - snakeHighScore.head.y)
        * (snakeLowScore.head.y - snakeHighScore.head.y)) < SnakeHeadRadius * 2 := by
    have hx : (snakeLowScore.head.x - snakeHighScore.head.x)
          * (snakeLowScore.head.x - snakeHighScore.head.x)
        + (snakeLowScore.head.y - snakeHighScore.head.y)
          * (snakeLowScore.head.y - snakeHighScore.head.y) = 1 := by
      norm_num [snakeLowScore, snakeHighScore, Snake.head]
    rw [hx, Real.sqrt_one, SnakeHeadRadius]
    norm_num
  have hs : snakeLowScore.score < snakeHighScore.score := by
    simp [snakeLowScore, snakeHighScore]
  exact ⟨hid, ha, hdist, hs,
    (claim_c3_head_pairs [] [] [] snakeLowScore snakeHighScore [] hid ha hb hdist).1 hs⟩

/-! ## Claim C6: food replenishment (MaintainFoodCount, world.go) -/

/-- Random draws consumed by NewFood: position radius/angle, level coin, and
the id/color draws of the constructor. -/
structure FoodDraws where
  r : ℝ
  a : ℝ
  lvl : ℝ
  fid : String
  color : String

/-- randomCirclePoint (food.go): uniform point in a circle by polar sampling
with square-root radius; `ur`, `ua` are the two uniform draws. -/
noncomputable def randomCirclePoint (cx cy radius ur ua : ℝ) : ℝ × ℝ :=
  (cx + radius * Real.sqrt ur * Real.cos (ua * 2 * Real.pi),
   cy + radius * Real.sqrt ur * Real.sin (ua * 2 * Real.pi))

/-- NewFood (food.go): random position in the world circle, level 3 with
probability 1/10, else level 1. -/
noncomputable def NewFood (fd : FoodDraws) : Food :=
  let p := randomCirclePoint WorldCenterX WorldCenterY WorldRadius fd.r fd.a
  let level := if fd.lvl < 0.10 then FoodLevel3 else FoodLevel1
  newFoodWithLevel fd.fid p.1 p.2 level false fd.color

/-- Random draws consumed by NewFoodCluster: cluster center, item count
(5 + Intn 8), cluster radius, and per-item draws. -/
structure ClusterDraws where
  centerR : ℝ
  centerA : ℝ
  countDraw : Fin 8
  radiusDraw : ℝ
  items : ℕ → FoodDraws

/-- NewFoodCluster (food.go): 5-12 items scattered within an 80-150 px radius
around a random center, clamped into the world circle, same 90/10 tier split. -/
noncomputable def NewFoodCluster (cd : ClusterDraws) : List Food :=
  let c := randomCirclePoint WorldCenterX WorldCenterY (WorldRadius - 200)
    cd.centerR cd.centerA
  let count := 5 + (cd.countDraw : ℕ)
  let clusterRadius := 80 + cd.radiusDraw * 70
  (List.range count).map (fun i =>
    let fd := cd.items i
    let p := randomCirclePoint c.1 c.2 clusterRadius fd.r fd.a
    let cp := clampToCircle p.1 p.2 WorldCenterX WorldCenterY WorldRadius
    let level := if fd.lvl < 0.10 then FoodLevel3 else FoodLevel1
    newFoodWithLevel fd.fid cp.1 cp.2 level false fd.color)

theorem NewFoodCluster_length (cd : ClusterDraws) :
    (NewFoodCluster cd).length = 5 + (cd.countDraw : ℕ) := by
  simp [NewFoodCluster]

/-- The spawn loop of MaintainFoodCount (world.go): while the batch is not
filled, spawn a cluster (truncated at the batch size) when at least 5 items
remain, else a single scattered item.  `ci`/`si` index the cluster and
single-item draw streams. -/
noncomputable def spawnLoop (cds : ℕ → ClusterDraws) (sds : ℕ → FoodDraws)
    (ci si spawned spawn : ℕ) : List Food :=
  if spawned < spawn then
    if spawn - spawned ≥ 5 then
      (NewFoodCluster (cds ci)).take (spawn - spawned) ++
        spawnLoop cds sds (ci + 1) si
          (spawned + ((NewFoodCluster (cds ci)).take (spawn - spawned)).length) spawn
    else
      NewFood (sds si) :: spawnLoop cds sds ci (si + 1) (spawned + 1) spawn
  else []
termination_by spawn - spawned
decreasing_by
  · have h1 := NewFoodCluster_length (cds ci)
    rw [List.length_take, h1]
    omega
  · omega

/-- MaintainFoodCount (world.go): count non-moving food, compute the deficit
to the target, cap the batch at FoodSpawnPerTick and run the spawn loop. -/
noncomputable def MaintainFoodCount (food : List Food) (cds : ℕ → ClusterDraws)
    (sds : ℕ → FoodDraws) : List Food :=
  let normalCount := (food.filter (fun f => !f.isMoving)).length
  let deficit : ℤ := (TargetFoodCount : ℤ) - normalCount
  if deficit ≤ 0 then food
  else
    let spawn : ℤ := if deficit > (FoodSpawnPerTick : ℤ) then (FoodSpawnPerTick : ℤ)
      else deficit
    food ++ spawnLoop cds sds 0 0 0 spawn.toNat

theorem spawnLoop_length (cds : ℕ → ClusterDraws) (sds : ℕ → FoodDraws)
    (ci si spawned spawn : ℕ) (h : spawned ≤ spawn) :
    (spawnLoop cds sds ci si spawned spawn).length = spawn - spawned := by
  induction ci, si, spawned, spawn using spawnLoop.induct cds sds with
  | case1 ci si spawned spawn h1 h2 ih =>
    rw [spawnLoop, if_pos h1, if_pos h2]
    have hcl := NewFoodCluster_length (cds ci)
    have hta : ((NewFoodCluster (cds ci)).take (spawn - spawned)).length
        = min (spawn - spawned) (5 + ((cds ci).countDraw : ℕ)) := by
      rw [List.length_take, hcl]
    rw [List.length_append, ih (by omega)]
    omega
  | case2 ci si spawned spawn h1 h2 ih =>
    rw [spawnLoop, if_pos h1, if_neg h2, List.length_cons, ih (by omega)]
    omega
  | case3 ci si spawned spawn h1 =>
    rw [spawnLoop, if_neg h1]
    simp only [List.length_nil]
    omega

/-- Claim C6: MaintainFoodCount counts only non-moving food; at or above the
target it spawns nothing, below it spawns exactly min(deficit, cap) items —
never more — and when at least 5 items are to be spawned the batch begins
with (a truncation of) a cluster spawn. -/
theorem claim_c6_replenish (food : List Food) (cds : ℕ → ClusterDraws)
    (sds : ℕ → FoodDraws) (n : ℕ)
    (hn : n = (food.filter (fun f => !f.isMoving)).length) :
    (TargetFoodCount ≤ n → MaintainFoodCount food cds sds = food) ∧
    (n < TargetFoodCount → (MaintainFoodCount food cds sds).length
        = food.length + min (TargetFoodCount - n) FoodSpawnPerTick) ∧
    (n < TargetFoodCount → 5 ≤ min (TargetFoodCount - n) FoodSpawnPerTick →
      ∃ rest, MaintainFoodCount food cds sds
        = food ++ ((NewFoodCluster (cds 0)).take
            (min (TargetFoodCount - n) FoodSpawnPerTick) ++ rest)) := by
  subst hn
  set n := (food.filter (fun f => !f.isMoving)).length with hnset
  refine ⟨?_, ?_, ?_⟩
  · intro hge
    simp only [MaintainFoodCount, ← hnset]
    rw [if_pos (by omega : (TargetFoodCount : ℤ) - (n : ℤ) ≤ 0)]
  · intro hlt
    simp only [MaintainFoodCount, ← hnset]
    rw [if_neg (by omega : ¬ ((TargetFoodCount : ℤ) - (n : ℤ) ≤ 0))]
    rw [List.length_append, spawnLoop_length _ _ _ _ _ _ (Nat.zero_le _)]
    congr 1
    split_ifs with hcap
    · simp only [Int.toNat_ofNat]
      omega
    · omega
  · intro hlt hbig
    simp only [MaintainFoodCount, ← hnset]
    rw [if_neg (by omega : ¬ ((TargetFoodCount : ℤ) - (n : ℤ) ≤ 0))]
    have hspawn : (if (TargetFoodCount : ℤ) - (n : ℤ) > (FoodSpawnPerTick : ℤ)
        then (FoodSpawnPerTick : ℤ) else (TargetFoodCount : ℤ) - (n : ℤ)).toNat
        = min (TargetFoodCount - n) FoodSpawnPerTick := by
      split_ifs with hcap
      · simp only [Int.toNat_ofNat]
        omega
      · omega
    rw [hspawn]
    rw [spawnLoop, if_pos (by omega), if_pos (by omega)]
    refine ⟨spawnLoop cds sds (0 + 1) 0
      (0 + ((NewFoodCluster (cds 0)).take
        (min (TargetFoodCount - n) FoodSpawnPerTick - 0)).length)
      (min (TargetFoodCount - n) FoodSpawnPerTick), ?_⟩
    simp

/-- A concrete food-draw tuple and cluster-draw tuple. -/
noncomputable def sampleFoodDraws : FoodDraws :=
  { r := 0, a := 0, lvl := 1, fid := "f0", color := "c0" }

noncomputable def sampleClusterDraws : ClusterDraws :=
  { centerR := 0, centerA := 0, countDraw := 0, radiusDraw := 0,
    items := fun _ => sampleFoodDraws }

/-- Claim C6 witness: from an empty food list (deficit 12500) the tick spawns
exactly min(12500, 100) items. -/
theorem claim_c6_witness :
    ((0:ℕ) = (([] : List Food).filter (fun f => !f.isMoving)).length) ∧
    ((0:ℕ) < TargetFoodCount) ∧
    ((MaintainFoodCount [] (fun _ => sampleClusterDraws)
        (fun _ => sampleFoodDraws)).length
      = ([] : List Food).length + min (TargetFoodCount - 0) FoodSpawnPerTick) :=
  ⟨rfl, by norm_num [TargetFoodCount],
   (claim_c6_replenish [] (fun _ => sampleClusterDraws) (fun _ => sampleFoodDraws)
     0 rfl).2.1 (by norm_num [TargetFoodCount])⟩

/-! ## Claim C9: bot priority chain (decideBotInput, bot.go)

The spatial-grid query results (nearby body points, nearby food ids) and the
world food map are passed in as parameters; the random draws of each rule are
fields of BotDraws. -/

/-- A body-point entry returned by the spatial grid. -/
structure GridEntry where
  snakeID : String
  segIdx : ℕ
  x : ℝ
  y : ℝ

/-- Per-bot AI state (bot.go). -/
structure Bot where
  id : String
  wanderTicks : ℤ
  targetAngle : ℝ
  boostTicks : ℤ
  respawnIn : ℤ
  seekTicks : ℤ
  lastScore : ℤ
  lastFoodDist : ℝ
  orbitCount : ℤ
  deathFoodX : ℝ
  deathFoodY : ℝ
  deathFoodTicks : ℤ

/-- Random draws consumed by one decideBotInput call: the wander-duration
draws of rules 1-4, the orbit-escape turn and duration draws, and the roam
target draws. -/
structure BotDraws where
  wd1 : ℕ
  wd2 : ℕ
  wd3 : ℕ
  wd4 : ℕ
  escTurn : ℝ
  escDur : ℕ
  roamR : ℝ
  roamA : ℝ
  roamDur : ℕ

/-- randomWanderDuration (bot.go): a tick count in [60, 120]. -/
def randomWanderDuration (d : ℕ) : ℕ := 60 + d % 61

/-- Largest finite float64, the initial best distance of the food scan. -/
noncomputable def MaxFloat64 : ℝ := (2 - 2 ^ (-(52:ℤ))) * 2 ^ (1023:ℕ)

/-- Priority 2 scan: the first nearby body point within 45 degrees of the
current heading yields a 90-degree avoidance turn. -/
noncomputable def dangerScan (head : Point) (currentAngle : ℝ) :
    List GridEntry → Option ℝ
  | [] => none
  | e :: rest =>
    let segAngle := atan2 (e.y - head.y) (e.x - head.x)
    let angleDiff := normalizeAngle (segAngle - currentAngle)
    if |angleDiff| < Real.pi / 4 then
      some (if angleDiff ≥ 0 then currentAngle - Real.pi / 2
        else currentAngle + Real.pi / 2)
    else dangerScan head currentAngle rest

/-- Priority 3 scan: the first other live snake with higher score within the
flee radius yields the directly-away heading. -/
noncomputable def fleeScan (snake : Snake) (head : Point) :
    List Snake → Option ℝ
  | [] => none
  | o :: rest =>
    if o.id = snake.id ∨ o.alive = false then fleeScan snake head rest
    else
      let dist := Real.sqrt ((o.head.x - head.x) * (o.head.x - head.x)
        + (o.head.y - head.y) * (o.head.y - head.y))
      if dist < BotFleeRadius ∧ snake.score < o.score then
        some (atan2 (head.y - o.head.y) (head.x - o.head.x))
      else fleeScan snake head rest

/-- Priority 4 scan: the first other live snake with lower score within the
chase radius yields the toward heading. -/
noncomputable def chaseScan (snake : Snake) (head : Point) :
    List Snake → Option ℝ
  | [] => none
  | o :: rest =>
    if o.id = snake.id ∨ o.alive = false then chaseScan snake head rest
    else
      let dist := Real.sqrt ((o.head.x - head.x) * (o.head.x - head.x)
        + (o.head.y - head.y) * (o.head.y - head.y))
      if dist < BotChaseRadius ∧ o.score < snake.score then
        some (atan2 (o.head.y - head.y) (o.head.x - head.x))
      else chaseScan snake head rest

/-- Priority 6 fold: the nearest food among the queried ids that lies within
90 degrees of the current heading. -/
noncomputable def bestFoodScan (foodMap : String → Option Food) (head : Point)
    (currentAngle : ℝ) : List String → ℝ → Option Food → ℝ × Option Food
  | [], bestDist, bestFood => (bestDist, bestFood)
  | fid :: rest, bestDist, bestFood =>
    match foodMap fid with
    | none => bestFoodScan foodMap head currentAngle rest bestDist bestFood
    | some f =>
      let d := Real.sqrt ((f.x - head.x) * (f.x - head.x)
        + (f.y - head.y) * (f.y - head.y))
      let foodAngle := atan2 (f.y - head.y) (f.x - head.x)
      if |normalizeAngle (foodAngle - currentAngle)| > Real.pi / 2 then
        bestFoodScan foodMap head currentAngle rest bestDist bestFood
      else if d < bestDist then
        bestFoodScan foodMap head currentAngle rest d (some f)
      else bestFoodScan foodMap head currentAngle rest bestDist bestFood

/-- Priorities 5 (food seek with orbit detection and seek timeout) and 6
(roam) of decideBotInput, entered when no earlier rule fired. -/
noncomputable def seekOrRoam (nearFoodIDs : List String)
    (foodMap : String → Option Food) (dr : BotDraws) (head : Point)
    (currentAngle : ℝ) (snake : Snake) (boost0 : Bool) (bot : Bot) :
    Bot × ℝ × Bool :=
  let bot5a := if snake.score > bot.lastScore then
      { bot with seekTicks := 0, orbitCount := 0, lastFoodDist := 0 }
    else bot
  let bot5 := { bot5a with lastScore := snake.score }
  let seekEnd : Bot → Bot × ℝ × Bool := fun b =>
    if b.seekTicks ≥ 60 then
      let ta := currentAngle + Real.pi / 2 + dr.escTurn * Real.pi
      ({ b with
          seekTicks := 0, orbitCount := 0, lastFoodDist := 0,
          targetAngle := ta, wanderTicks := ((30 + dr.escDur % 40 : ℕ) : ℤ) },
        ta, false)
    else
      let b8 := if b.wanderTicks ≤ 0 then
          let targetR := (WorldRadius - BotBoundaryBuffer) * Real.sqrt dr.roamR
          let targetA := dr.roamA * 2 * Real.pi
          let tx := WorldCenterX + targetR * Real.cos targetA
          let ty := WorldCenterY + targetR * Real.sin targetA
          { b with
              targetAngle := atan2 (ty - head.y) (tx - head.x),
              wanderTicks := ((40 + dr.roamDur % 60 : ℕ) : ℤ) }
        else b
      ({ b8 with wanderTicks := b8.wanderTicks - 1 }, b8.targetAngle, boost0)
  if nearFoodIDs.length > 0 ∧ bot5.seekTicks < 60 then
    let bf := bestFoodScan foodMap head currentAngle nearFoodIDs MaxFloat64 none
    match bf.2 with
    | some best =>
      let bot6 := if bot5.lastFoodDist > 0 ∧ bf.1 ≥ bot5.lastFoodDist - 1 then
          { bot5 with orbitCount := bot5.orbitCount + 1 }
        else { bot5 with orbitCount := 0 }
      let bot7 := { bot6 with lastFoodDist := bf.1 }
      if bot7.orbitCount ≥ (8:ℤ) then
        let ta := currentAngle + Real.pi / 2 + dr.escTurn * Real.pi
        ({ bot7 with
            orbitCount := 0, seekTicks := 0, lastFoodDist := 0,
            targetAngle := ta, wanderTicks := ((30 + dr.escDur % 40 : ℕ) : ℤ) },
          ta, false)
      else
        let ta := atan2 (best.y - head.y) (best.x - head.x)
        ({ bot7 with targetAngle := ta, seekTicks := bot7.seekTicks + 1 },
          ta, boost0)
    | none => seekEnd bot5
  else seekEnd bot5

/-- decideBotInput (bot.go): the strict priority chain.  Rule 1 (boundary
avoidance) first; then danger avoidance, flee, chase, the kill-site rush, the
food seek, and roam. -/
noncomputable def decideBotInput (snakes : List Snake)
    (nearbyBody : List GridEntry) (nearFoodIDs : List String)
    (foodMap : String → Option Food) (dr : BotDraws) (bot : Bot)
    (snake : Snake) : Bot × ℝ × Bool :=
  let head := snake.head
  let currentAngle := snake.angle
  let dx := head.x - WorldCenterX
  let dy := head.y - WorldCenterY
  let distFromCenter := Real.sqrt (dx * dx + dy * dy)
  if distFromCenter > WorldRadius - BotBoundaryBuffer then
    let ta := atan2 (WorldCenterY - head.y) (WorldCenterX - head.x)
    ({ bot with
        targetAngle := ta,
        wanderTicks := (randomWanderDuration dr.wd1 : ℤ) }, ta, false)
  else
    match dangerScan head currentAngle nearbyBody with
    | some ta =>
      ({ bot with
          targetAngle := ta,
          wanderTicks := (randomWanderDuration dr.wd2 : ℤ) }, ta, false)
    | none =>
      match fleeScan snake head snakes with
      | some ta =>
        let botF : Bot := { bot with
          targetAngle := ta, boostTicks := 30,
          wanderTicks := (randomWanderDuration dr.wd3 : ℤ) }
        ({ botF with boostTicks := botF.boostTicks - 1 }, ta, true)
      | none =>
        let bot2 := if bot.boostTicks > 0 then
            { bot with boostTicks := bot.boostTicks - 1 } else bot
        let boost0 := decide (bot.boostTicks > 0)
        match chaseScan snake head snakes with
        | some ta =>
          let bo := boost0 || decide (snake.segments.length > SnakeMinSegments + 5)
          ({ bot2 with
              targetAngle := ta,
              wanderTicks := (randomWanderDuration dr.wd4 : ℤ) }, ta, bo)
        | none =>
          if bot2.deathFoodTicks > 0 then
            let bot3 : Bot := { bot2 with deathFoodTicks := bot2.deathFoodTicks - 1 }
            let ddx := bot3.deathFoodX - head.x
            let ddy := bot3.deathFoodY - head.y
            let dist := Real.sqrt (ddx * ddx + ddy * ddy)
            if dist < 30 then
              seekOrRoam nearFoodIDs foodMap dr head currentAngle snake boost0
                { bot3 with deathFoodTicks := 0 }
            else
              let ta := atan2 ddy ddx
              let bo := boost0 || decide (snake.segments.length > SnakeMinSegments + 5)
              ({ bot3 with targetAngle := ta }, ta, bo)
          else
            seekOrRoam nearFoodIDs foodMap dr head currentAngle snake boost0 bot2

/-- Claim C9: whenever the head's distance from the world center exceeds
WorldRadius - BotBoundaryBuffer, the bot's decision for the tick is exactly
the heading straight toward the world center with boost off (and a refreshed
wander timer), no matter what bodies, snakes, kill sites or food surround
it — boundary avoidance preempts every other rule. -/
theorem claim_c9_boundary_preempts (snakes : List Snake)
    (nearbyBody : List GridEntry) (nearFoodIDs : List String)
    (foodMap : String → Option Food) (dr : BotDraws) (bot : Bot) (snake : Snake)
    (h : Real.sqrt ((snake.head.x - WorldCenterX) * (snake.head.x - WorldCenterX)
      + (snake.head.y - WorldCenterY) * (snake.head.y - WorldCenterY))
        > WorldRadius - BotBoundaryBuffer) :
    decideBotInput snakes nearbyBody nearFoodIDs foodMap dr bot snake
      = ({ bot with
            targetAngle := atan2 (WorldCenterY - snake.head.y)
              (WorldCenterX - snake.head.x),
            wanderTicks := (randomWanderDuration dr.wd1 : ℤ) },
         atan2 (WorldCenterY - snake.head.y) (WorldCenterX - snake.head.x),
         false) := by
  simp only [decideBotInput]
  rw [if_pos h]

/-- A snake whose head is 10400 px from the world center, within the
boundary buffer zone. -/
noncomputable def snakeNearEdge : Snake :=
  { id := "e", name := "E", segments := [⟨20900, 10500⟩], angle := 0,
    speed := 3, score := 5, color := "c", alive := true, boostActive := false,
    boostTicks := 0, width := 10 }

noncomputable def sampleBot : Bot :=
  { id := "e", wanderTicks := 0, targetAngle := 0, boostTicks := 0,
    respawnIn := 0, seekTicks := 0, lastScore := 0, lastFoodDist := 0,
    orbitCount := 0, deathFoodX := 0, deathFoodY := 0, deathFoodTicks := 0 }

noncomputable def sampleBotDraws : BotDraws :=
  { wd1 := 0, wd2 := 0, wd3 := 0, wd4 := 0, escTurn := 0, escDur := 0,
    roamR := 0, roamA := 0, roamDur := 0 }

/-- Claim C9 witness: the boundary rule fires for the concrete near-edge
snake and the decision is boost-off. -/
theorem claim_c9_witness :
    (Real.sqrt ((snakeNearEdge.head.x - WorldCenterX)
        * (snakeNearEdge.head.x - WorldCenterX)
      + (snakeNearEdge.head.y - WorldCenterY)
        * (snakeNearEdge.head.y - WorldCenterY))
      > WorldRadius - BotBoundaryBuffer) ∧
    ((decideBotInput [] [] [] (fun _ => none) sampleBotDraws sampleBot
        snakeNearEdge).2.2 = false) := by
  have hx : snakeNearEdge.head.x = 20900 := by
    simp [snakeNearEdge, Snake.head]
  have hy : snakeNearEdge.head.y = 10500 := by
    simp [snakeNearEdge, Snake.head]
  have h : Real.sqrt ((snakeNearEdge.head.x - WorldCenterX)
        * (snakeNearEdge.head.x - WorldCenterX)
      + (snakeNearEdge.head.y - WorldCenterY)
        * (snakeNearEdge.head.y - WorldCenterY))
      > WorldRadius - BotBoundaryBuffer := by
    rw [hx, hy, WorldCenterX, WorldCenterY, WorldRadius, BotBoundaryBuffer]
    rw [show ((20900 - 10500.0) * (20900 - 10500.0)
        + (10500 - 10500.0) * (10500 - 10500.0) : ℝ) = 10400 ^ 2 by norm_num]
    rw [Real.sqrt_sq (by norm_num : (0:ℝ) ≤ 10400)]
    norm_num
  refine ⟨h, ?_⟩
  rw [claim_c9_boundary_preempts [] [] [] (fun _ => none) sampleBotDraws
    sampleBot snakeNearEdge h]

/-! ## Claim C10: food consumption (collectFood, game_loop.go)

The world food map is an association list; the spatial-grid query result for
each snake is its list of candidate food ids.  Consuming removes the id from
the map (RemoveFood) before growing, so a later head — of the same or another
snake — finds the id gone. -/

abbrev FoodMap := List (String × Food)

theorem grow_score (s : Snake) (v : ℤ) : (s.grow v).score = s.score + v := rfl

/-- The inner loop of collectFood for one snake: look each candidate id up in
the (current) food map; when present, remove it and grow the snake by its
value.  Also returns the log of consumed (id, item) pairs. -/
noncomputable def collectOne : FoodMap → Snake → List String →
    FoodMap × Snake × List (String × Food)
  | m, _s, [] => (m, _s, [])
  | m, s, fid :: rest =>
    match alookup m fid with
    | none => collectOne m s rest
    | some f =>
      let r := collectOne (m.filter (fun e => decide (e.1 ≠ fid))) (s.grow f.value) rest
      (r.1, r.2.1, (fid, f) :: r.2.2)

/-- collectFood (game_loop.go): every alive snake in turn consumes the food
still present among its nearby ids. -/
noncomputable def collectFood : FoodMap → List (Snake × List String) →
    FoodMap × List (Snake × List (String × Food))
  | m, [] => (m, [])
  | m, (s, fids) :: rest =>
    if s.alive then
      let r1 := collectOne m s fids
      let r2 := collectFood r1.1 rest
      (r2.1, (r1.2.1, r1.2.2) :: r2.2)
    else
      let r2 := collectFood m rest
      (r2.1, (s, ([] : List (String × Food))) :: r2.2)

theorem alookup_filter_ne_self {β : Type} (m : List (String × β)) (fid : String) :
    alookup (m.filter (fun e => decide (e.1 ≠ fid))) fid = none := by
  induction m with
  | nil => rfl
  | cons e rest ih =>
    by_cases he : e.1 = fid
    · rw [List.filter_cons_of_neg (by simp [he])]
      exact ih
    · rw [List.filter_cons_of_pos (by simp [he])]
      obtain ⟨k2, v⟩ := e
      simp only [alookup]
      rw [if_neg he]
      exact ih

theorem alookup_filter_ne_other {β : Type} (m : List (String × β))
    (fid k : String) (h : k ≠ fid) :
    alookup (m.filter (fun e => decide (e.1 ≠ fid))) k = alookup m k := by
  induction m with
  | nil => rfl
  | cons e rest ih =>
    obtain ⟨k2, v⟩ := e
    by_cases he : k2 = fid
    · rw [List.filter_cons_of_neg (by simp [he])]
      simp only [alookup]
      rw [if_neg (by rw [he]; exact fun hh => h hh.symm)]
      exact ih
    · rw [List.filter_cons_of_pos (by simp [he])]
      simp only [alookup]
      by_cases hk : k2 = k
      · rw [if_pos hk, if_pos hk]
      · rw [if_neg hk, if_neg hk]
        exact ih

/-- Behaviour of one snake's consumption loop: the consumed ids are distinct,
each consumed item was present in the entry map, the returned map is the
entry map with exactly the consumed ids gone, and the snake's score grew by
the sum of the consumed values. -/
theorem collectOne_spec (fids : List String) (m : FoodMap) (s : Snake) :
    (((collectOne m s fids).2.2.map Prod.fst).Nodup) ∧
    (∀ e ∈ (collectOne m s fids).2.2, alookup m e.1 = some e.2) ∧
    (∀ k, alookup (collectOne m s fids).1 k
      = if k ∈ (collectOne m s fids).2.2.map Prod.fst then none
        else alookup m k) ∧
    ((collectOne m s fids).2.1.score
      = s.score + ((collectOne m s fids).2.2.map (fun e => e.2.value)).sum) := by
  induction fids generalizing m s with
  | nil =>
    refine ⟨List.nodup_nil, by simp [collectOne], ?_, by simp [collectOne]⟩
    intro k
    simp [collectOne]
  | cons fid rest ih =>
    cases hl : alookup m fid with
    | none =>
      simp only [collectOne, hl]
      exact ih m s
    | some f =>
      obtain ⟨ha', hb', hc', hd'⟩ :=
        ih (m.filter (fun e => decide (e.1 ≠ fid))) (s.grow f.value)
      simp only [collectOne, hl, List.map_cons]
      have hfid_not : fid ∉ (collectOne (m.filter (fun e => decide (e.1 ≠ fid)))
          (s.grow f.value) rest).2.2.map Prod.fst := by
        intro hmem
        obtain ⟨e, hemem, hefst⟩ := List.mem_map.mp hmem
        have := hb' e hemem
        rw [hefst, alookup_filter_ne_self] at this
        cases this
      refine ⟨List.nodup_cons.mpr ⟨hfid_not, ha'⟩, ?_, ?_, ?_⟩
      · intro e he
        rcases List.mem_cons.mp he with heq | hin
        · rw [heq]
          exact hl
        · have h1 := hb' e hin
          by_cases hef : e.1 = fid
          · rw [hef, alookup_filter_ne_self] at h1
            cases h1
          · rw [alookup_filter_ne_other m fid e.1 hef] at h1
            exact h1
      · intro k
        have h1 := hc' k
        by_cases hk1 : k ∈ (collectOne (m.filter (fun e => decide (e.1 ≠ fid)))
            (s.grow f.value) rest).2.2.map Prod.fst
        · rw [if_pos (List.mem_cons.mpr (Or.inr hk1))]
          rw [if_pos hk1] at h1
          exact h1
        · rw [if_neg hk1] at h1
          by_cases hk2 : k = fid
          · rw [if_pos (List.mem_cons.mpr (Or.inl hk2))]
            rw [h1, hk2, alookup_filter_ne_self]
          · rw [if_neg (by
              intro hmem
              rcases List.mem_cons.mp hmem with h | h
              · exact hk2 h
              · exact hk1 h)]
            rw [h1, alookup_filter_ne_other m fid k hk2]
      · rw [hd', grow_score]
        simp only [List.map_cons, List.sum_cons]
        ring

/-- Claim C10: in one collectFood pass over any food map and any per-snake
candidate-id lists, every food item is consumed at most once (the consumed
ids are pairwise distinct), each consumed item was present in the map at the
start of the pass, the final map is the starting map minus exactly the
consumed ids, each snake's score rises by the sum of the values it consumed
(dead snakes untouched), and hence the total score increase of the pass
equals the total value of the removed items. -/
theorem claim_c10_consume_once (pass : List (Snake × List String)) (m : FoodMap) :
    let r := collectFood m pass
    let logs := (r.2.map (fun e => e.2)).flatten
    ((logs.map Prod.fst).Nodup) ∧
    (∀ e ∈ logs, alookup m e.1 = some e.2) ∧
    (∀ k, alookup r.1 k
      = if k ∈ logs.map Prod.fst then none else alookup m k) ∧
    (List.Forall₂ (fun (inp : Snake × List String)
        (out : Snake × List (String × Food)) =>
      out.1.score = inp.1.score + (out.2.map (fun e => e.2.value)).sum) pass r.2) ∧
    ((r.2.map (fun e => e.1.score)).sum
      = (pass.map (fun e => e.1.score)).sum
        + (logs.map (fun e => e.2.value)).sum) := by
  induction pass generalizing m with
  | nil =>
    refine ⟨List.nodup_nil, by simp [collectFood], ?_, by simp [collectFood],
      by simp [collectFood]⟩
    intro k
    simp [collectFood]
  | cons hd rest ih =>
    obtain ⟨s, fids⟩ := hd
    by_cases hal : s.alive = true
    · obtain ⟨ha1, hb1, hc1, hd1⟩ := collectOne_spec fids m s
      obtain ⟨ha2, hb2, hc2, hd2, he2⟩ := ih (collectOne m s fids).1
      simp only [collectFood, if_pos hal, List.map_cons, List.flatten_cons]
      have hdisj : ∀ k ∈ (collectOne m s fids).2.2.map Prod.fst,
          k ∉ (((collectFood (collectOne m s fids).1 rest).2.map
            (fun e => e.2)).flatten.map Prod.fst) := by
        intro k hk1 hk2
        obtain ⟨e, hemem, hefst⟩ := List.mem_map.mp hk2
        have h1 := hb2 e hemem
        rw [hefst, hc1 k, if_pos hk1] at h1
        cases h1
      refine ⟨?_, ?_, ?_, ?_, ?_⟩
      · rw [List.map_append, List.nodup_append]
        exact ⟨ha1, ha2, fun k hk1 hk2 => hdisj k hk1 hk2⟩
      · intro e he
        rcases List.mem_append.mp he with hin | hin
        · exact hb1 e hin
        · have h1 := hb2 e hin
          have h2 := hc1 e.1
          by_cases hk : e.1 ∈ (collectOne m s fids).2.2.map Prod.fst
          · rw [if_pos hk] at h2
            rw [h2] at h1
            cases h1
          · rw [if_neg hk] at h2
            rw [h2] at h1
            exact h1
      · intro k
        have h1 := hc2 k
        have h2 := hc1 k
        rw [List.map_append]
        by_cases hk2 : k ∈ (((collectFood (collectOne m s fids).1 rest).2.map
            (fun e => e.2)).flatten.map Prod.fst)
        · rw [if_pos (List.mem_append.mpr (Or.inr hk2))]
          rw [if_pos hk2] at h1
          exact h1
        · rw [if_neg hk2] at h1
          by_cases hk1 : k ∈ (collectOne m s fids).2.2.map Prod.fst
          · rw [if_pos (List.mem_append.mpr (Or.inl hk1))]
            rw [h1, h2, if_pos hk1]
          · rw [if_neg (by
              intro hmem
              rcases List.mem_append.mp hmem with h | h
              · exact hk1 h
              · exact hk2 h)]
            rw [h1, h2, if_neg hk1]
      · exact List.Forall₂.cons hd1 hd2
      · simp only [List.map_cons, List.sum_cons, List.map_append,
          List.sum_append]
        rw [hd1]
        omega
    · have hal' : s.alive = false := by
        cases h : s.alive
        · rfl
        · exact absurd h hal
      obtain ⟨ha2, hb2, hc2, hd2, he2⟩ := ih m
      simp only [collectFood, hal', Bool.false_eq_true, if_false,
        List.map_cons, List.flatten_cons, List.nil_append]
      refine ⟨ha2, hb2, hc2, ?_, ?_⟩
      · exact List.Forall₂.cons (by simp) hd2
      · simp only [List.map_cons, List.sum_cons]
        omega

/-- A concrete one-item food map contested by two snakes. -/
noncomputable def contestedFood : Food :=
  { id := "f1", x := 0, y := 0, value := 3, color := "c", level := 3,
    isMoving := false, moveAngle := 0, moveSpeed := 0, moveTicks := 0 }

/-- Claim C10 witness: the theorem applied to a concrete map and pass in
which two alive snakes both have the same food id in range. -/
theorem claim_c10_witness :
    (((collectFood [("f1", contestedFood)]
        [(snakeLowScore, ["f1"]), (snakeHighScore, ["f1"])]).2.map
          (fun e => e.1.score)).sum
      = ([(snakeLowScore, ["f1"]), (snakeHighScore, ["f1"])].map
          (fun e => e.1.score)).sum
        + ((((collectFood [("f1", contestedFood)]
            [(snakeLowScore, ["f1"]), (snakeHighScore, ["f1"])]).2.map
              (fun e => e.2)).flatten.map (fun e => e.2.value)).sum)) :=
  (claim_c10_consume_once [(snakeLowScore, ["f1"]), (snakeHighScore, ["f1"])]
    [("f1", contestedFood)]).2.2.2.2

end Slether
